import Mathlib

/-!
Verification development for the botadventure audio-to-video waveform pipeline.

The TypeScript sources are shallowly embedded:
* `src/utils/audioVisualizer.ts` — amplitude extraction (`analyzeAudio`),
  frame compositing (`drawWaveform`, here emitted as an explicit list of
  canvas drawing commands with a pixel-level rendering semantics), and the
  frame-sequence generator (`generateWaveformFrames`).
* `src/utils/ffmpegCore.ts` — the encoder orchestrator: the engine's virtual
  filesystem is a finite map from names to byte strings, `createVideoFromFrames`
  is the exact sequence of write/exec/read/delete steps performed by the source,
  and the engine-load memoization (`getFFmpeg` / `loadFFmpeg`) is a small state
  machine over the module-level variables `{ffmpeg, ffmpegLoaded, loadingPromise}`.
* `src/components/SceneEditor.ts` — the conversion freshness tracker: the
  four-field settings snapshot, the staleness check in `schedulePreviewRefresh`,
  and the editor-level event transitions that touch `videoPreviewOutdated`.

JavaScript `number` arithmetic is modelled over `ℚ` (the computations involved
are exact: additions, multiplications, divisions and comparisons of small
quantities), machine integers over `ℕ`, and decoded media over explicit lists.
-/

namespace BotAdventure

/-! ### Centralized settings (`src/config/ffmpegSettings.ts`) -/

/-- `VIDEO_DIMENSIONS.width` — canvas width (9:16 portrait video mode). -/
def VIDEO_WIDTH : ℚ := 720

/-- `VIDEO_DIMENSIONS.height` — canvas height. -/
def VIDEO_HEIGHT : ℚ := 1280

namespace AudioVisualizer

/-! ### Amplitude extractor (`analyzeAudio`, audioVisualizer.ts lines 55-110)

The host audio decoding (`AudioContext.decodeAudioData`, `getChannelData(0)`)
is the embedding boundary: `raw` below is the decoded first-channel PCM data.
-/

/-- `const targetSamples = Math.floor(VIDEO_WIDTH / barWidth)` (line 76). -/
def targetSamples (barWidth : ℚ) : ℕ := ⌊VIDEO_WIDTH / barWidth⌋₊

/-- `const blockSize = Math.floor(rawData.length / targetSamples)` (line 77).
(When `targetSamples = 0` the loop below is empty and the value is unused;
`ℕ` division returns 0 where JS returns `Infinity`.) -/
def blockSize (barWidth : ℚ) (raw : List ℚ) : ℕ := raw.length / targetSamples barWidth

/-- The inner peak loop (lines 81-92): max of `|rawData[j]|` for
`j ∈ [start, min (start+k) raw.length)`, accumulator initialised to 0. -/
def blockPeak (raw : List ℚ) (start k : ℕ) : ℚ :=
  ((raw.drop start).take k).foldl (fun m x => max m |x|) 0

/-- The downsampled peak sequence (lines 78-93), before normalization. -/
def sampleDataRaw (barWidth : ℚ) (raw : List ℚ) : List ℚ :=
  (List.range (targetSamples barWidth)).map
    (fun i => blockPeak raw (i * blockSize barWidth raw) (blockSize barWidth raw))

/-- `const maxSample = Math.max(...sampleData)` (line 96). All peaks are
nonnegative, so folding from 0 agrees with `Math.max` on nonempty input;
on empty input both fail the `> 0` guard below. -/
def maxSample (l : List ℚ) : ℚ := l.foldl max 0

/-- `analyzeAudio` sample data (lines 76-101): downsample to block peaks, then
normalize by the global max unless it is 0 (lines 96-101). -/
def analyzeAudio (barWidth : ℚ) (raw : List ℚ) : List ℚ :=
  let sd := sampleDataRaw barWidth raw
  let m := maxSample sd
  if 0 < m then sd.map (fun x => x / m) else sd

/-! ### Frame compositor (`drawWaveform`, audioVisualizer.ts lines 127-339)

Canvas state mutation is embedded as the emission of an explicit list of
drawing commands (each carrying the concrete numeric parameters the source
passes to the canvas API), plus a pixel-level rendering semantics below.
Colors are modelled as RGBA tuples; the source stores them as hex strings and
parses them back with `parseInt(slice, 16)` at the brightening site, which is
an exact round-trip for 8-bit channels.
-/

/-- An RGBA color; channels in `[0,255]`, alpha in `[0,1]`. -/
structure Color where
  r : ℚ
  g : ℚ
  b : ℚ
  a : ℚ
deriving DecidableEq

/-- `'#e6e6ff'` — default unplayed bar color (line 35). -/
def colorE6E6FF : Color := ⟨230, 230, 255, 1⟩

/-- `'#7777bb'` — default played bar color (line 36). -/
def color7777BB : Color := ⟨119, 119, 187, 1⟩

/-- `'#3399cc'` — fallback played color at line 213. -/
def color3399CC : Color := ⟨51, 153, 204, 1⟩

/-- `'#ffffff'` — `WAVEFORM_SETTINGS.playheadColor`. -/
def colorWhite : Color := ⟨255, 255, 255, 1⟩

/-- `'#000000'` — `WAVEFORM_SETTINGS.backgroundColor`. -/
def colorBlack : Color := ⟨0, 0, 0, 1⟩

/-- A decoded image: intrinsic dimensions plus a pixel sampling function
(the embedding boundary for the host image decoder). -/
structure Img where
  width : ℚ
  height : ℚ
  pix : ℚ → ℚ → Color

inductive WaveStyle where
  | bars
  | line
  | mirror
deriving DecidableEq

inductive WavePosition where
  | full
  | bottom
deriving DecidableEq

/-- `VisualizationOptions` after the `{...defaultOptions, ...options}` merge in
`generateWaveformFrames` (line 462): all fields present. `backgroundImage`
records only presence of the image blob (the decoded image itself is passed to
`drawWaveform` separately, mirroring the source's two arguments). -/
structure VisualizationOptions where
  backgroundColor : Color
  waveformColor : Color
  waveformPlayedColor : Option Color
  playheadColor : Color
  fps : ℕ
  style : WaveStyle
  barWidth : ℚ
  barGap : ℚ
  backgroundImage : Bool
  waveformPosition : WavePosition
  waveformHeight : ℚ
  waveformOverlayOpacity : ℚ
  playAreaGlow : Bool
  playAreaWidth : ℚ
  playAreaBrightness : ℕ

/-- `defaultOptions` (audioVisualizer.ts lines 33-50), with
`WAVEFORM_SETTINGS` values from ffmpegSettings.ts inlined. -/
def defaultOptions : VisualizationOptions where
  backgroundColor := colorBlack
  waveformColor := colorE6E6FF
  waveformPlayedColor := some color7777BB
  playheadColor := colorWhite
  fps := 10
  style := WaveStyle.bars
  barWidth := 4
  barGap := 1/5
  backgroundImage := false
  waveformPosition := WavePosition.bottom
  waveformHeight := 1/10
  waveformOverlayOpacity := 3/10
  playAreaGlow := true
  playAreaWidth := 50
  playAreaBrightness := 100

/-- JavaScript `x || d` for numbers (`0` is falsy): lines 175, 201. -/
def orDefault (x d : ℚ) : ℚ := if x = 0 then d else x

/-- JavaScript `n || d` for the integer brightness option (line 227). -/
def orDefaultNat (n d : ℕ) : ℕ := if n = 0 then d else n

/-- The cover-fit placement computation (lines 141-158): returns
`(offsetX, offsetY, drawWidth, drawHeight)` for `ctx.drawImage`. -/
structure Placement where
  offsetX : ℚ
  offsetY : ℚ
  drawWidth : ℚ
  drawHeight : ℚ
deriving DecidableEq

def coverPlacement (imgW imgH w h : ℚ) : Placement :=
  let imgAspect := imgW / imgH
  let canvasAspect := w / h
  if canvasAspect < imgAspect then
    -- image is wider than canvas (lines 146-151)
    { drawHeight := h, drawWidth := h * imgAspect
      offsetX := (w - h * imgAspect) / 2, offsetY := 0 }
  else
    -- image is taller than canvas (lines 152-158)
    { drawWidth := w, drawHeight := w / imgAspect
      offsetX := 0, offsetY := (h - w / imgAspect) / 2 }

/-- One canvas drawing command, with the parameters the source passes.
`roundRect` is a `beginPath`/`roundRect`/`fill` triple (lines 244-251);
`vline` is a vertical `moveTo`/`lineTo`/`stroke` (playhead, lines 326-337);
`pathFill`/`pathStroke` carry the vertex lists of the `line`/`mirror` styles. -/
inductive DrawCmd where
  | fillRect (color : Color) (x y w h : ℚ)
  | drawImage (img : Img) (x y w h : ℚ)
  | roundRect (color : Color) (x y w h radius : ℚ)
  | vline (color : Color) (lineWidth : ℚ) (x y1 y2 : ℚ)
  | pathFill (color : Color) (pts : List (ℚ × ℚ))
  | pathStroke (color : Color) (lineWidth : ℚ) (pts : List (ℚ × ℚ))

/-- `playheadColor + '40'` (line 332): append an 8-bit hex alpha. -/
def withAlpha (c : Color) (a : ℚ) : Color := { c with a := a }

/-- The glow-brightened bar color (lines 220-236): per-channel add of
`Math.floor(glowStrength * maxBrightness)`, clamped to 255. -/
def brightenColor (c : Color) (brighten : ℚ) : Color :=
  ⟨min 255 (c.r + brighten), min 255 (c.g + brighten), min 255 (c.b + brighten), 1⟩

/-- The bar color selection for bar `i` (lines 209-236): played/unplayed by
`barProgress < progress`, then optional proximity brightening when
`playAreaGlow && playAreaWidth` holds. -/
def barColorAt (options : VisualizationOptions) (progress barProgress : ℚ) : Color :=
  let baseColor :=
    if barProgress < progress then options.waveformPlayedColor.getD color3399CC
    else options.waveformColor
  if options.playAreaGlow = true ∧ options.playAreaWidth ≠ 0 then
    let distanceFromPlayhead := |barProgress - progress|
    let glowRange := options.playAreaWidth / VIDEO_WIDTH
    if distanceFromPlayhead < glowRange then
      let glowStrength := 1 - distanceFromPlayhead / glowRange
      let maxBrightness := (orDefaultNat options.playAreaBrightness 100 : ℚ)
      brightenColor baseColor ⌊glowStrength * maxBrightness⌋
    else baseColor
  else baseColor

/-- `drawWaveform` (lines 127-339) as the list of drawing commands it issues,
in source order: background (image cover-fit or solid fill), dark overlay on
the waveform band, the waveform itself (bars / line / mirror), and the
playhead lines when `playAreaGlow` is disabled. -/
def drawWaveformCmds (sampleData : List ℚ) (options : VisualizationOptions)
    (progress : ℚ) (backgroundImg : Option Img) : List DrawCmd :=
  let width := VIDEO_WIDTH
  let height := VIDEO_HEIGHT
  -- lines 139-165: background
  let bgCmd : DrawCmd :=
    match backgroundImg, options.backgroundImage with
    | some img, true =>
      let p := coverPlacement img.width img.height width height
      DrawCmd.drawImage img p.offsetX p.offsetY p.drawWidth p.drawHeight
    | _, _ => DrawCmd.fillRect options.backgroundColor 0 0 width height
  -- lines 170-182: waveform band geometry
  let waveformY :=
    match options.waveformPosition with
    | WavePosition.bottom => height - height * orDefault options.waveformHeight (1/10)
    | WavePosition.full => 0
  let waveformHeight :=
    match options.waveformPosition with
    | WavePosition.bottom => height * orDefault options.waveformHeight (1/10)
    | WavePosition.full => height
  -- lines 184-188: dark overlay
  let overlayCmds : List DrawCmd :=
    if 0 < options.waveformOverlayOpacity then
      [DrawCmd.fillRect ⟨0, 0, 0, options.waveformOverlayOpacity⟩ 0 waveformY width waveformHeight]
    else []
  let centerY := waveformY + waveformHeight / 2
  let maxHeight := waveformHeight * (4/5)
  let n := sampleData.length
  let waveCmds : List DrawCmd :=
    match options.style with
    | WaveStyle.bars =>
      -- lines 198-252
      let actualBarWidth := width / (n : ℚ)
      let gapSize := actualBarWidth * orDefault options.barGap (1/5)
      let barDrawWidth := actualBarWidth - gapSize
      let radius := min 2 (barDrawWidth * (1/5))
      (List.range n).flatMap (fun i =>
        let x := (i : ℚ) * actualBarWidth
        let barHeight := sampleData.getD i 0 * maxHeight * (1/2)
        let barProgress := (i : ℚ) / (n : ℚ)
        let barColor := barColorAt options progress barProgress
        [DrawCmd.roundRect barColor (x + gapSize/2) (centerY - barHeight) barDrawWidth barHeight radius,
         DrawCmd.roundRect barColor (x + gapSize/2) centerY barDrawWidth barHeight radius])
    | WaveStyle.line =>
      -- lines 253-277: one closed path, top edge then mirrored bottom edge
      let forward := (List.range n).map (fun i =>
        (((i : ℕ) : ℚ) / (n : ℚ) * width, centerY - sampleData.getD i 0 * maxHeight * (1/2)))
      let backward := ((List.range n).reverse).map (fun i =>
        (((i : ℕ) : ℚ) / (n : ℚ) * width, centerY + sampleData.getD i 0 * maxHeight * (1/2)))
      [DrawCmd.pathFill options.waveformColor ((((0 : ℚ), centerY)) :: (forward ++ backward))]
    | WaveStyle.mirror =>
      -- lines 278-318: two quadratic-smoothed strokes
      let top := (List.range n).map (fun i =>
        (((i : ℕ) : ℚ) / (n : ℚ) * width, centerY - sampleData.getD i 0 * maxHeight * (1/2)))
      let bottom := (List.range n).map (fun i =>
        (((i : ℕ) : ℚ) / (n : ℚ) * width, centerY + sampleData.getD i 0 * maxHeight * (1/2)))
      [DrawCmd.pathStroke options.waveformColor 2 top,
       DrawCmd.pathStroke options.waveformColor 2 bottom]
  -- lines 321-338: playhead fallback
  let playheadCmds : List DrawCmd :=
    if options.playAreaGlow then []
    else
      let playheadX := progress * width
      [DrawCmd.vline options.playheadColor 3 playheadX waveformY (waveformY + waveformHeight),
       DrawCmd.vline (withAlpha options.playheadColor (64/255)) 10 playheadX waveformY (waveformY + waveformHeight)]
  bgCmd :: (overlayCmds ++ waveCmds ++ playheadCmds)

/-! ### Pixel-level rendering semantics for the drawing commands

A surface assigns a color to each integer pixel coordinate. `fillRect`,
`drawImage`, `roundRect` and `vline` get the standard semantics (a pixel is
covered when its coordinate lies in the painted region; paint composites
source-over, which is the identity on fully opaque sources). The host
rasterization of the filled/stroked curve paths of the `line`/`mirror` styles
is not specified by the source, so it is a parameter `pathRast`: an arbitrary
fixed function of the command, the pixel, and the pixel's previous color. -/

def Surface : Type := ℕ → ℕ → Color

/-- Source-over compositing of a source color onto a previous pixel color. -/
def blend (src prev : Color) : Color :=
  if src.a = 1 then src
  else ⟨src.a * src.r + (1 - src.a) * prev.r,
        src.a * src.g + (1 - src.a) * prev.g,
        src.a * src.b + (1 - src.a) * prev.b,
        src.a + (1 - src.a) * prev.a⟩

/-- Pixel `(px, py)` lies in the axis-aligned rectangle. -/
def inRect (px py x y w h : ℚ) : Prop := x ≤ px ∧ px < x + w ∧ y ≤ py ∧ py < y + h

instance (px py x y w h : ℚ) : Decidable (inRect px py x y w h) := by
  unfold inRect; infer_instance

/-- Membership in a rounded rectangle of corner radius `rad`: inside the
rectangle, and when the pixel falls in one of the four corner squares it must
lie within the corner disk. -/
def inRoundRect (px py x y w h rad : ℚ) : Prop :=
  inRect px py x y w h ∧
  (px < x + rad ∧ py < y + rad →
    (px - (x + rad))^2 + (py - (y + rad))^2 ≤ rad^2) ∧
  (x + w - rad < px ∧ py < y + rad →
    (px - (x + w - rad))^2 + (py - (y + rad))^2 ≤ rad^2) ∧
  (px < x + rad ∧ y + h - rad < py →
    (px - (x + rad))^2 + (py - (y + h - rad))^2 ≤ rad^2) ∧
  (x + w - rad < px ∧ y + h - rad < py →
    (px - (x + w - rad))^2 + (py - (y + h - rad))^2 ≤ rad^2)

instance (px py x y w h rad : ℚ) : Decidable (inRoundRect px py x y w h rad) := by
  unfold inRoundRect; infer_instance

/-- Apply one command to one pixel. -/
def applyCmd (pathRast : DrawCmd → ℕ → ℕ → Color → Color)
    (cmd : DrawCmd) (px py : ℕ) (prev : Color) : Color :=
  match cmd with
  | DrawCmd.fillRect c x y w h =>
    if inRect (px : ℚ) (py : ℚ) x y w h then blend c prev else prev
  | DrawCmd.drawImage img x y w h =>
    if inRect (px : ℚ) (py : ℚ) x y w h then
      blend (img.pix (((px : ℚ) - x) / w * img.width) (((py : ℚ) - y) / h * img.height)) prev
    else prev
  | DrawCmd.roundRect c x y w h rad =>
    if inRoundRect (px : ℚ) (py : ℚ) x y w h rad then blend c prev else prev
  | DrawCmd.vline c lw x y1 y2 =>
    if |(px : ℚ) - x| ≤ lw / 2 ∧ y1 ≤ (py : ℚ) ∧ (py : ℚ) ≤ y2 then blend c prev else prev
  | DrawCmd.pathFill _ _ => pathRast cmd px py prev
  | DrawCmd.pathStroke _ _ _ => pathRast cmd px py prev

/-- Render a command list over a surface, pointwise. -/
def renderCmds (pathRast : DrawCmd → ℕ → ℕ → Color → Color)
    (cmds : List DrawCmd) (s : Surface) (px py : ℕ) : Color :=
  cmds.foldl (fun c cmd => applyCmd pathRast cmd px py c) (s px py)

/-- The placement `(x, y, w, h)` of the leading background-image draw of a
command list, when the list starts with one. -/
def bgPlacementOf : List DrawCmd → Option (ℚ × ℚ × ℚ × ℚ)
  | DrawCmd.drawImage _ x y w h :: _ => some (x, y, w, h)
  | _ => none

/-- The background layer drawn by `drawWaveform` is fully opaque: either a
present background image with positive intrinsic dimensions all of whose
pixels have alpha 1, or no image and an opaque solid `backgroundColor`. -/
def opaqueBackground (options : VisualizationOptions) (backgroundImg : Option Img) : Prop :=
  match backgroundImg, options.backgroundImage with
  | some img, true => 0 < img.width ∧ 0 < img.height ∧ ∀ sx sy, (img.pix sx sy).a = 1
  | _, _ => options.backgroundColor.a = 1

/-! ### Frame sequence generator
(`generateWaveformFrames`, audioVisualizer.ts lines 451-536)

Decoding (`analyzeAudio` giving `duration` and `sampleData`), background image
loading and the html2canvas text overlay are async host boundaries; the frame
loop itself is embedded exactly: each produced frame is the command list that
composited it (the canvas-to-JPEG encoding is a host function of that surface).
-/

/-- `const totalFrames = Math.ceil(duration * opts.fps)` (line 489). -/
def totalFrames (duration : ℚ) (fps : ℕ) : ℕ := ⌈duration * (fps : ℚ)⌉₊

/-- Line 497: `frameIndex === totalFrames - 1 ? 1.0 : frameIndex / (totalFrames - 1)`. -/
def frameProgress (total f : ℕ) : ℚ :=
  if f = total - 1 then 1 else (f : ℚ) / ((total : ℚ) - 1)

/-- One frame's composited surface: `drawWaveform` plus the optional
`ctx.drawImage(textOverlayCanvas, 0, 0)` composite (lines 500-505). -/
def frameCmds (sampleData : List ℚ) (options : VisualizationOptions) (progress : ℚ)
    (backgroundImg overlay : Option Img) : List DrawCmd :=
  drawWaveformCmds sampleData options progress backgroundImg ++
    (match overlay with
     | some o => [DrawCmd.drawImage o 0 0 VIDEO_WIDTH VIDEO_HEIGHT]
     | none => [])

/-- The frame loop (lines 495-525): one frame per index in `[0, totalFrames)`. -/
def generateWaveformFrames (sampleData : List ℚ) (options : VisualizationOptions)
    (duration : ℚ) (backgroundImg overlay : Option Img) : List (List DrawCmd) :=
  (List.range (totalFrames duration options.fps)).map
    (fun f => frameCmds sampleData options
      (frameProgress (totalFrames duration options.fps) f) backgroundImg overlay)

end AudioVisualizer

namespace FFmpegCore

/-! ### Encoder orchestrator (`src/utils/ffmpegCore.ts`)

The engine's virtual filesystem is a map from names to byte strings.
`deleteFile` fails (throws) on a missing entry, as ffmpeg.wasm's does; the
source wraps each frame deletion in its own try/catch but groups the audio and
output deletions under a single try/catch, and the embedding mirrors both.
-/

def Bytes : Type := List ℕ

/-- The engine's virtual filesystem. -/
def FS : Type := String → Option Bytes

/-- `ff.writeFile(name, data)`. -/
def writeFile (fs : FS) (name : String) (d : Bytes) : FS :=
  fun m => if m = name then some d else fs m

/-- `ff.deleteFile(name)`: errors when the entry does not exist. -/
def deleteFile (fs : FS) (name : String) : Except Unit FS :=
  if (fs name).isSome then Except.ok (fun m => if m = name then none else fs m)
  else Except.error ()

/-- `try { await ff.deleteFile(name) } catch {}`. -/
def tryDeleteFile (fs : FS) (name : String) : FS :=
  match deleteFile fs name with
  | Except.ok fs2 => fs2
  | Except.error _ => fs

/-- `i.toString().padStart(5, '0')`. -/
def padStart5 (s : String) : String :=
  if s.length < 5 then String.mk (List.replicate (5 - s.length) '0') ++ s else s

/-- `` `frame_${i.toString().padStart(5, '0')}.jpg` `` (lines 488, 500, 574). -/
def frameName (i : ℕ) : String := "frame_" ++ padStart5 (toString i) ++ ".jpg"

/-- `` `audio.${audioExt}` ``. -/
def audioName (audioExt : String) : String := "audio." ++ audioExt

/-- `'output.mp4'`. -/
def outputName : String := "output.mp4"

/-- A frame-deletion loop (`for i ...: try deleteFile(frameName i) catch {}`),
used both by the initial cleanup (lines 486-490) and the finally block
(lines 571-576). -/
def deleteFrames (fs : FS) (n : ℕ) : FS :=
  (List.range n).foldl (fun acc i => tryDeleteFile acc (frameName i)) fs

/-- `try { await ff.deleteFile(audio...); await ff.deleteFile('output.mp4') } catch {}`
(lines 491-494 and 577-582): one try around both deletes, so a failing audio
delete skips the output delete. -/
def cleanupAudioOutput (fs : FS) (audioExt : String) : FS :=
  match deleteFile fs (audioName audioExt) with
  | Except.ok fs2 =>
    match deleteFile fs2 outputName with
    | Except.ok fs3 => fs3
    | Except.error _ => fs2
  | Except.error _ => fs

/-- The frame-writing loop (lines 498-507). -/
def writeFrames (fs : FS) (frames : List Bytes) : FS :=
  frames.enum.foldl (fun acc p => writeFile acc (frameName p.1) p.2) fs

/-- `createVideoFromFrames` (lines 472-584). `execResult` is the mock encode
command's result code; on success the command materialises `output.mp4` with
`encoded`. Returns the final filesystem together with the fulfilled value or
the propagated error. -/
def createVideoFromFrames (fs0 : FS) (frames : List Bytes) (audio : Bytes)
    (audioExt : String) (execResult : ℕ) (encoded : Bytes) : FS × Except String Bytes :=
  -- lines 485-494: clean up any existing files
  let fs1 := deleteFrames fs0 frames.length
  let fs2 := cleanupAudioOutput fs1 audioExt
  -- lines 496-512: write frames and audio
  let fs3 := writeFrames fs2 frames
  let fs4 := writeFile fs3 (audioName audioExt) audio
  -- lines 526-541: run the encode command
  let fs5 := if execResult = 0 then writeFile fs4 outputName encoded else fs4
  -- lines 552-562: non-zero result throws; otherwise read the output
  let res : Except String Bytes :=
    if execResult = 0 then
      match fs5 outputName with
      | some d => Except.ok d
      | none => Except.error "output.mp4 missing"
    else Except.error ("FFmpeg frame video failed with code " ++ toString execResult)
  -- lines 567-583: finally — cleanup runs on success and on failure
  let fs6 := deleteFrames fs5 frames.length
  let fs7 := cleanupAudioOutput fs6 audioExt
  (fs7, res)

/-! ### Engine load memoization (`getFFmpeg` / `loadFFmpeg`, lines 180-252)

The module-level variables `ffmpeg`, `ffmpegLoaded`, `loadingPromise` form the
state; engine instances and promises are identified by numbers. `loadsStarted`
counts how many loads have been started (the spec's mock-loader call counter).
-/

structure FFState where
  ffmpeg : Option ℕ
  ffmpegLoaded : Bool
  loadingPromise : Option ℕ
  loadsStarted : ℕ
deriving DecidableEq

inductive GetOutcome where
  /-- Line 182-185: instance already loaded, return it. -/
  | cached (inst : ℕ)
  /-- Line 188-191: a load is in flight, return the same promise. -/
  | awaitExisting (promise : ℕ)
  /-- Line 194-195: start a fresh load and memoize its promise. -/
  | startedLoad (promise : ℕ)
deriving DecidableEq

/-- `getFFmpeg()` (lines 180-196), given a fresh promise id for the case where
a new load must be started. -/
def getFFmpeg (s : FFState) (freshPromise : ℕ) : FFState × GetOutcome :=
  match s.ffmpeg, s.ffmpegLoaded with
  | some inst, true => (s, GetOutcome.cached inst)
  | _, _ =>
    match s.loadingPromise with
    | some p => (s, GetOutcome.awaitExisting p)
    | none =>
      ({ s with loadingPromise := some freshPromise, loadsStarted := s.loadsStarted + 1 },
       GetOutcome.startedLoad freshPromise)

/-- `loadFFmpeg` up to its first await: `ffmpeg = new FFmpeg()` (line 205). -/
def loadFFmpegStart (s : FFState) (inst : ℕ) : FFState := { s with ffmpeg := some inst }

/-- `loadFFmpeg` completion: on success set `ffmpegLoaded` and clear
`loadingPromise` (lines 243-245); on failure clear `loadingPromise` and
rethrow (lines 247-251). -/
def loadFFmpegFinish (s : FFState) (success : Bool) : FFState :=
  if success then { s with ffmpegLoaded := true, loadingPromise := none }
  else { s with loadingPromise := none }

end FFmpegCore

namespace SceneEditor

/-! ### Conversion freshness tracker (`src/components/SceneEditor.ts`)

`VideoSettings` is the `lastVideoSettings` shape (lines 23-28): the current
editor values are the DOM reads (`image-text`, `choices`, `use-waveform-viz`)
plus the `lastBackgroundImage` data-URL field (compared with `!==`, which on
strings is value equality). -/

structure VideoSettings where
  imageText : String
  choices : String
  backgroundImage : String
  useWaveform : Bool
deriving DecidableEq

/-- The four-field staleness comparison in `schedulePreviewRefresh`
(lines 296-301). -/
def videoSettingsChanged (current snapshot : VideoSettings) : Bool :=
  current.imageText != snapshot.imageText ||
  current.choices != snapshot.choices ||
  current.backgroundImage != snapshot.backgroundImage ||
  current.useWaveform != snapshot.useWaveform

/-- The editor state relevant to video staleness: presence of an audio file
and of a converted video, the current editor values, the snapshot from the
last successful conversion, and the stale flag. -/
structure EditorState where
  audioFile : Bool
  convertedVideoBlob : Bool
  current : VideoSettings
  lastVideoSettings : VideoSettings
  videoPreviewOutdated : Bool
deriving DecidableEq

/-- `schedulePreviewRefresh` (lines 284-304): when an audio file and a
converted video exist and any tracked field differs from the snapshot, set
`videoPreviewOutdated := true`. It never clears the flag. -/
def schedulePreviewRefresh (s : EditorState) : EditorState :=
  if s.audioFile && s.convertedVideoBlob &&
      videoSettingsChanged s.current s.lastVideoSettings then
    { s with videoPreviewOutdated := true }
  else s

/-- The editor events that touch the staleness state, one per source site. -/
inductive EditorEvent where
  /-- Text input handlers (lines 51-75): update the DOM values, then
  `schedulePreviewRefresh`. -/
  | editInput (imageText choices : String)
  /-- Waveform toggle (lines 155-162): if audio is present, set the flag and
  reschedule. -/
  | toggleWaveform (checked : Bool)
  /-- Background upload (lines 617-645): store the data URL; if audio is
  present set the flag; always reschedule. -/
  | setBackgroundImage (dataUrl : String)
  /-- Background removal (lines 649-666): clear the data URL and reschedule. -/
  | removeBackgroundImage
  /-- Audio upload (lines 698-717): store the file, drop the converted video,
  set the flag, reschedule. -/
  | uploadAudio
  /-- Audio removal (lines 719-736): drop file and converted video, reschedule. -/
  | removeAudio
  /-- Successful `convertAudioToVideo` completion (lines 895-910): store the
  video, replace the snapshot with the current values, clear the flag,
  reschedule. -/
  | conversionSuccess
deriving DecidableEq

def step : EditorEvent → EditorState → EditorState
  | EditorEvent.editInput it ch, s =>
    schedulePreviewRefresh { s with current := { s.current with imageText := it, choices := ch } }
  | EditorEvent.toggleWaveform checked, s =>
    let s1 := { s with current := { s.current with useWaveform := checked } }
    if s1.audioFile then schedulePreviewRefresh { s1 with videoPreviewOutdated := true } else s1
  | EditorEvent.setBackgroundImage url, s =>
    let s1 := { s with current := { s.current with backgroundImage := url } }
    let s2 := if s1.audioFile then { s1 with videoPreviewOutdated := true } else s1
    schedulePreviewRefresh s2
  | EditorEvent.removeBackgroundImage, s =>
    schedulePreviewRefresh { s with current := { s.current with backgroundImage := "" } }
  | EditorEvent.uploadAudio, s =>
    schedulePreviewRefresh { s with audioFile := true, convertedVideoBlob := false, videoPreviewOutdated := true }
  | EditorEvent.removeAudio, s =>
    schedulePreviewRefresh { s with audioFile := false, convertedVideoBlob := false }
  | EditorEvent.conversionSuccess, s =>
    schedulePreviewRefresh { s with convertedVideoBlob := true, lastVideoSettings := s.current, videoPreviewOutdated := false }

/-- Outcome of one successful `convertAudioToVideo` run (lines 745-911). -/
structure ConvertOutcome where
  /-- The settings actually used to produce the video: the DOM reads at lines
  835-841 (scene text, choices for the overlay; the waveform toggle read at
  line 826 selecting the branch) and `this.lastBackgroundImage` at line 846. -/
  encodedWith : VideoSettings
  /-- The stored `lastVideoSettings` snapshot: fresh DOM reads at lines
  897-899 and `this.lastBackgroundImage` at line 904 — i.e. the values present
  at completion time, after every await of the conversion. -/
  snapshot : VideoSettings
  /-- Line 907: `this.videoPreviewOutdated = false`. -/
  videoPreviewOutdated : Bool
deriving DecidableEq

/-- One successful conversion, parametrised by the editor values at the
function's initial reads (`startVals`) and at its completion-time reads
(`endVals`); the two differ exactly when the user edits while the conversion
is running. -/
def convertAudioToVideoRun (startVals endVals : VideoSettings) : ConvertOutcome :=
  { encodedWith := startVals
    snapshot := endVals
    videoPreviewOutdated := false }

end SceneEditor
/-! ### Generic fold/max helpers -/

/-- The initial accumulator is a lower bound of a `foldl max`. -/
theorem init_le_foldl_max (l : List ℚ) (a : ℚ) : a ≤ l.foldl max a := by
  induction l generalizing a with
  | nil => exact le_refl a
  | cons x xs ih => exact le_trans (le_max_left a x) (ih (max a x))

/-- Every member of the list is a lower bound of a `foldl max`. -/
theorem mem_le_foldl_max (l : List ℚ) (a x : ℚ) : x ∈ l → x ≤ l.foldl max a := by
  induction l generalizing a with
  | nil => intro hx; cases hx
  | cons y ys ih =>
    intro hx
    rcases List.mem_cons.mp hx with h | h
    · subst h
      exact le_trans (le_max_right a x) (init_le_foldl_max ys (max a x))
    · exact ih (max a y) h

/-- A `foldl max` is either the initial accumulator or a member of the list. -/
theorem foldl_max_mem (l : List ℚ) (a : ℚ) : l.foldl max a = a ∨ l.foldl max a ∈ l := by
  induction l generalizing a with
  | nil => exact Or.inl rfl
  | cons x xs ih =>
    rcases ih (max a x) with h | h
    · rcases max_choice a x with hm | hm
      · exact Or.inl (by rw [List.foldl_cons, h, hm])
      · exact Or.inr (by rw [List.foldl_cons, h, hm]; exact List.mem_cons_self x xs)
    · exact Or.inr (List.mem_cons_of_mem x h)

/-- Folding `fun m x => max m |x|` is folding `max` over the mapped absolute values. -/
theorem foldl_max_abs_eq_map (l : List ℚ) (a : ℚ) :
    l.foldl (fun m x => max m |x|) a = (l.map (fun x => |x|)).foldl max a := by
  induction l generalizing a with
  | nil => rfl
  | cons x xs ih => simpa using ih (max a |x|)


/-! ### Helper lemmas about the SceneEditor freshness tracker -/

namespace SceneEditor

/-- The staleness comparison is reflexively false. -/
theorem videoSettingsChanged_self (v : VideoSettings) : videoSettingsChanged v v = false := by
  simp [videoSettingsChanged]

/-- `schedulePreviewRefresh` never clears the stale flag. -/
theorem schedulePreviewRefresh_outdated_mono (s : EditorState)
    (h : s.videoPreviewOutdated = true) :
    (schedulePreviewRefresh s).videoPreviewOutdated = true := by
  unfold schedulePreviewRefresh
  split
  · rfl
  · exact h

/-- `schedulePreviewRefresh` does not touch the snapshot. -/
theorem schedulePreviewRefresh_lastVideoSettings (s : EditorState) :
    (schedulePreviewRefresh s).lastVideoSettings = s.lastVideoSettings := by
  unfold schedulePreviewRefresh
  split <;> rfl

/-- Every event other than a successful conversion preserves a set stale flag. -/
theorem step_preserves_outdated (s : EditorState) (e : EditorEvent)
    (h : s.videoPreviewOutdated = true) (hne : e ≠ EditorEvent.conversionSuccess) :
    (step e s).videoPreviewOutdated = true := by
  cases e with
  | editInput it ch => exact schedulePreviewRefresh_outdated_mono _ h
  | toggleWaveform checked =>
    simp only [step]
    split
    · exact schedulePreviewRefresh_outdated_mono _ rfl
    · exact h
  | setBackgroundImage url =>
    simp only [step]
    split
    · exact schedulePreviewRefresh_outdated_mono _ rfl
    · exact schedulePreviewRefresh_outdated_mono _ h
  | removeBackgroundImage => exact schedulePreviewRefresh_outdated_mono _ h
  | uploadAudio => exact schedulePreviewRefresh_outdated_mono _ rfl
  | removeAudio => exact schedulePreviewRefresh_outdated_mono _ h
  | conversionSuccess => exact absurd rfl hne

end SceneEditor

/-! ### Claim theorems -/

/-- C7: the staleness decision (the four-field comparison in
`schedulePreviewRefresh`) returns `false` exactly when all four tracked fields
(imageText, choices, backgroundImage identity, useWaveform) are unchanged from
the snapshot, and returns `true` whenever any single one of the four fields
changes by value while the other three stay constant. -/
theorem videoSettingsChanged_iff (c s : SceneEditor.VideoSettings) :
    (SceneEditor.videoSettingsChanged c s = false ↔
      (c.imageText = s.imageText ∧ c.choices = s.choices ∧
       c.backgroundImage = s.backgroundImage ∧ c.useWaveform = s.useWaveform)) ∧
    (c.imageText ≠ s.imageText ∧ c.choices = s.choices ∧
       c.backgroundImage = s.backgroundImage ∧ c.useWaveform = s.useWaveform →
      SceneEditor.videoSettingsChanged c s = true) ∧
    (c.imageText = s.imageText ∧ c.choices ≠ s.choices ∧
       c.backgroundImage = s.backgroundImage ∧ c.useWaveform = s.useWaveform →
      SceneEditor.videoSettingsChanged c s = true) ∧
    (c.imageText = s.imageText ∧ c.choices = s.choices ∧
       c.backgroundImage ≠ s.backgroundImage ∧ c.useWaveform = s.useWaveform →
      SceneEditor.videoSettingsChanged c s = true) ∧
    (c.imageText = s.imageText ∧ c.choices = s.choices ∧
       c.backgroundImage = s.backgroundImage ∧ c.useWaveform ≠ s.useWaveform →
      SceneEditor.videoSettingsChanged c s = true) := by
  unfold SceneEditor.videoSettingsChanged
  refine ⟨by simp [and_assoc], ?_, ?_, ?_, ?_⟩ <;>
    · rintro ⟨h1, h2, h3, h4⟩
      simp [h1, h2, h3, h4]

/-- C7 witness: changing only `useWaveform` flips the decision to `true`;
identical settings give `false`. -/
theorem videoSettingsChanged_iff_witness :
    SceneEditor.videoSettingsChanged ⟨"scene", "go left", "bg", false⟩ ⟨"scene", "go left", "bg", true⟩ = true ∧
    SceneEditor.videoSettingsChanged ⟨"scene", "go left", "bg", true⟩ ⟨"scene", "go left", "bg", true⟩ = false := by
  constructor
  · exact (videoSettingsChanged_iff ⟨"scene", "go left", "bg", false⟩ ⟨"scene", "go left", "bg", true⟩).2.2.2.2
      ⟨rfl, rfl, rfl, by decide⟩
  · exact (videoSettingsChanged_iff ⟨"scene", "go left", "bg", true⟩ ⟨"scene", "go left", "bg", true⟩).1.mpr
      ⟨rfl, rfl, rfl, rfl⟩

/-- C10: `videoPreviewOutdated` is a latch. Once set it stays set across every
editor event other than a successful conversion (in particular across edits
that restore the snapshot values); an event that clears it must be
`conversionSuccess`; a divergence between edited inputs and the snapshot
(with audio and a converted video present) sets it; and a successful
conversion clears it and replaces the snapshot with the current inputs. -/
theorem videoPreviewOutdated_latch :
    (∀ (s : SceneEditor.EditorState) (e : SceneEditor.EditorEvent),
      s.videoPreviewOutdated = true → e ≠ SceneEditor.EditorEvent.conversionSuccess →
      (SceneEditor.step e s).videoPreviewOutdated = true) ∧
    (∀ (s : SceneEditor.EditorState) (e : SceneEditor.EditorEvent),
      (SceneEditor.step e s).videoPreviewOutdated = false →
      s.videoPreviewOutdated = false ∨ e = SceneEditor.EditorEvent.conversionSuccess) ∧
    (∀ (s : SceneEditor.EditorState) (it ch : String),
      s.audioFile = true → s.convertedVideoBlob = true →
      SceneEditor.videoSettingsChanged
        { s.current with imageText := it, choices := ch } s.lastVideoSettings = true →
      (SceneEditor.step (SceneEditor.EditorEvent.editInput it ch) s).videoPreviewOutdated = true) ∧
    (∀ (s : SceneEditor.EditorState),
      (SceneEditor.step SceneEditor.EditorEvent.conversionSuccess s).videoPreviewOutdated = false ∧
      (SceneEditor.step SceneEditor.EditorEvent.conversionSuccess s).lastVideoSettings = s.current) := by
  refine ⟨fun s e h hne => SceneEditor.step_preserves_outdated s e h hne, ?_, ?_, ?_⟩
  · intro s e h
    by_cases he : e = SceneEditor.EditorEvent.conversionSuccess
    · exact Or.inr he
    · left
      by_contra hs
      have ht : s.videoPreviewOutdated = true := eq_true_of_ne_false hs
      rw [SceneEditor.step_preserves_outdated s e ht he] at h
      cases h
  · intro s it ch ha hb hchanged
    simp only [SceneEditor.step, SceneEditor.schedulePreviewRefresh, ha, hb, hchanged]
    rfl
  · intro s
    constructor
    · simp only [SceneEditor.step, SceneEditor.schedulePreviewRefresh,
        SceneEditor.videoSettingsChanged_self, Bool.and_false]
      rfl
    · simp only [SceneEditor.step]
      rw [SceneEditor.schedulePreviewRefresh_lastVideoSettings]

/-- C10 witness: a set flag survives an edit that restores the snapshot
values, and a successful conversion clears it. -/
theorem videoPreviewOutdated_latch_witness :
    (SceneEditor.step (SceneEditor.EditorEvent.editInput "A" "c")
      ⟨true, true, ⟨"A", "c", "b", true⟩, ⟨"A", "c", "b", true⟩, true⟩).videoPreviewOutdated = true ∧
    (SceneEditor.step SceneEditor.EditorEvent.conversionSuccess
      ⟨true, true, ⟨"X", "c", "b", true⟩, ⟨"A", "c", "b", true⟩, true⟩).videoPreviewOutdated = false := by
  constructor
  · exact videoPreviewOutdated_latch.1 _ _ rfl (by decide)
  · exact (videoPreviewOutdated_latch.2.2.2 _).1

/-- C6 (code bug): after a successful conversion the stored snapshot is the
completion-time editor state, not the inputs the video was encoded from.
Concretely: the conversion starts with `imageText = "A"` (used for the
overlay/encode), the user edits it to `"B"` while the encode runs, and the
stored snapshot then records `"B"` — differing from the settings actually
encoded — while the stale flag is still cleared. -/
theorem convertAudioToVideo_snapshot_mismatch :
    (SceneEditor.convertAudioToVideoRun
        ⟨"A", "c", "bg", true⟩ ⟨"B", "c", "bg", true⟩).snapshot ≠
      (SceneEditor.convertAudioToVideoRun
        ⟨"A", "c", "bg", true⟩ ⟨"B", "c", "bg", true⟩).encodedWith ∧
    (SceneEditor.convertAudioToVideoRun
        ⟨"A", "c", "bg", true⟩ ⟨"B", "c", "bg", true⟩).snapshot = ⟨"B", "c", "bg", true⟩ ∧
    (SceneEditor.convertAudioToVideoRun
        ⟨"A", "c", "bg", true⟩ ⟨"B", "c", "bg", true⟩).videoPreviewOutdated = false := by
  refine ⟨?_, rfl, rfl⟩
  intro h
  have := congrArg SceneEditor.VideoSettings.imageText h
  simp [SceneEditor.convertAudioToVideoRun] at this

/-- C4: the engine-initialization state machine. While a load promise is in
flight, two successive `getFFmpeg` calls both return the same in-flight
promise (hence resolve to the same engine instance), leave the state
untouched, and start no second load; and after a failed load the memoized
promise is cleared, so the next call starts a fresh initialization (the load
counter increments) instead of replaying the cached failure. -/
theorem getFFmpeg_memoization (s : FFmpegCore.FFState) (p : ℕ)
    (hp : s.loadingPromise = some p) (hnl : s.ffmpegLoaded = false) (f1 f2 : ℕ) :
    (FFmpegCore.getFFmpeg s f1).2 = FFmpegCore.GetOutcome.awaitExisting p ∧
    (FFmpegCore.getFFmpeg s f1).1 = s ∧
    (FFmpegCore.getFFmpeg (FFmpegCore.getFFmpeg s f1).1 f2).2
      = FFmpegCore.GetOutcome.awaitExisting p ∧
    (FFmpegCore.getFFmpeg s f1).1.loadsStarted = s.loadsStarted ∧
    (∀ inst,
      (FFmpegCore.loadFFmpegFinish (FFmpegCore.loadFFmpegStart s inst) false).loadingPromise
        = none) ∧
    (∀ inst f3,
      (FFmpegCore.getFFmpeg
        (FFmpegCore.loadFFmpegFinish (FFmpegCore.loadFFmpegStart s inst) false) f3).2
          = FFmpegCore.GetOutcome.startedLoad f3 ∧
      (FFmpegCore.getFFmpeg
        (FFmpegCore.loadFFmpegFinish (FFmpegCore.loadFFmpegStart s inst) false) f3).1.loadsStarted
          = s.loadsStarted + 1) := by
  obtain ⟨ff, loaded, lp, ls⟩ := s
  simp only at hp hnl
  subst hnl
  subst hp
  cases ff <;>
    exact ⟨rfl, rfl, rfl, rfl, fun inst => rfl, fun inst f3 => ⟨rfl, rfl⟩⟩

/-- C4 witness: the memoization facts at a concrete in-flight state. -/
theorem getFFmpeg_memoization_witness :
    (FFmpegCore.getFFmpeg ⟨some 7, false, some 3, 1⟩ 10).2
      = FFmpegCore.GetOutcome.awaitExisting 3 ∧
    (FFmpegCore.getFFmpeg ⟨some 7, false, some 3, 1⟩ 10).1 = ⟨some 7, false, some 3, 1⟩ ∧
    (FFmpegCore.getFFmpeg (FFmpegCore.getFFmpeg ⟨some 7, false, some 3, 1⟩ 10).1 11).2
      = FFmpegCore.GetOutcome.awaitExisting 3 ∧
    (FFmpegCore.getFFmpeg ⟨some 7, false, some 3, 1⟩ 10).1.loadsStarted = 1 ∧
    (∀ inst,
      (FFmpegCore.loadFFmpegFinish
        (FFmpegCore.loadFFmpegStart ⟨some 7, false, some 3, 1⟩ inst) false).loadingPromise
          = none) ∧
    (∀ inst f3,
      (FFmpegCore.getFFmpeg
        (FFmpegCore.loadFFmpegFinish
          (FFmpegCore.loadFFmpegStart ⟨some 7, false, some 3, 1⟩ inst) false) f3).2
            = FFmpegCore.GetOutcome.startedLoad f3 ∧
      (FFmpegCore.getFFmpeg
        (FFmpegCore.loadFFmpegFinish
          (FFmpegCore.loadFFmpegStart ⟨some 7, false, some 3, 1⟩ inst) false) f3).1.loadsStarted
            = 1 + 1) :=
  getFFmpeg_memoization ⟨some 7, false, some 3, 1⟩ 3 rfl rfl 10 11

/-! ### Helper lemmas for the amplitude extractor and frame generator -/

/-- Block peaks are nonnegative. -/
theorem blockPeak_nonneg (raw : List ℚ) (s k : ℕ) : 0 ≤ AudioVisualizer.blockPeak raw s k := by
  unfold AudioVisualizer.blockPeak
  rw [foldl_max_abs_eq_map]
  exact init_le_foldl_max _ 0

/-- Every downsampled sample is nonnegative. -/
theorem sampleDataRaw_nonneg (barWidth : ℚ) (raw : List ℚ) :
    ∀ x ∈ AudioVisualizer.sampleDataRaw barWidth raw, 0 ≤ x := by
  intro x hx
  unfold AudioVisualizer.sampleDataRaw at hx
  obtain ⟨i, _, rfl⟩ := List.mem_map.mp hx
  exact blockPeak_nonneg raw _ _

/-- A `take`/`drop` window whose end stays in bounds, as a map over indices. -/
theorem take_drop_eq_range_map (l : List ℚ) (s k : ℕ) (h : s + k ≤ l.length) :
    (l.drop s).take k = (List.range k).map (fun j => l.getD (s + j) 0) := by
  apply List.ext_getElem
  · simp only [List.length_take, List.length_drop, List.length_map, List.length_range]
    omega
  · intro i h1 h2
    have hl : s + i < l.length := by
      simp only [List.length_take, List.length_drop] at h1
      omega
    have hk : i < k := by
      simp only [List.length_take, List.length_drop] at h1
      omega
    rw [List.getElem_take, List.getElem_drop]
    rw [List.getElem_map, List.getElem_range]
    rw [List.getD_eq_getElem l 0 hl]

/-- Indexing the downsampled sequence. -/
theorem sampleDataRaw_getD (barWidth : ℚ) (raw : List ℚ) (i : ℕ)
    (hi : i < AudioVisualizer.targetSamples barWidth) :
    (AudioVisualizer.sampleDataRaw barWidth raw).getD i 0 =
      AudioVisualizer.blockPeak raw (i * AudioVisualizer.blockSize barWidth raw)
        (AudioVisualizer.blockSize barWidth raw) := by
  unfold AudioVisualizer.sampleDataRaw
  rw [List.getD_eq_getElem _ 0 (by simpa using hi)]
  rw [List.getElem_map, List.getElem_range]

/-- The block of sample `i` lies inside the PCM data: the `min` clamp at
line 82 of the source never bites. -/
theorem block_in_range (barWidth : ℚ) (raw : List ℚ) (i : ℕ)
    (hi : i < AudioVisualizer.targetSamples barWidth) :
    i * AudioVisualizer.blockSize barWidth raw + AudioVisualizer.blockSize barWidth raw
      ≤ raw.length := by
  have h1 : (i + 1) * AudioVisualizer.blockSize barWidth raw
      ≤ AudioVisualizer.targetSamples barWidth * AudioVisualizer.blockSize barWidth raw :=
    Nat.mul_le_mul_right _ hi
  have h2 : AudioVisualizer.targetSamples barWidth * AudioVisualizer.blockSize barWidth raw
      ≤ raw.length := by
    unfold AudioVisualizer.blockSize
    rw [Nat.mul_comm]
    exact Nat.div_mul_le_self _ _
  calc i * AudioVisualizer.blockSize barWidth raw + AudioVisualizer.blockSize barWidth raw
      = (i + 1) * AudioVisualizer.blockSize barWidth raw := by ring
    _ ≤ raw.length := le_trans h1 h2

/-- The last element of a map over `List.range`. -/
theorem range_map_getLast? {α : Type} (n : ℕ) (hn : 0 < n) (g : ℕ → α) :
    ((List.range n).map g).getLast? = some (g (n - 1)) := by
  obtain ⟨m, rfl⟩ := Nat.exists_eq_succ_of_ne_zero (Nat.pos_iff_ne_zero.mp hn)
  rw [List.range_succ, List.map_append]
  simp

/-- C2: normalization invariant of `analyzeAudio`. When some block peak is
nonzero, the returned sample data attains maximum value exactly 1 (1 is a
member and every sample is at most 1). When every block peak is 0 (silent
audio), the division is skipped — the data is returned as the raw peaks —
and every sample equals 0. -/
theorem analyzeAudio_normalization (barWidth : ℚ) (raw : List ℚ) :
    ((∃ x ∈ AudioVisualizer.sampleDataRaw barWidth raw, x ≠ 0) →
      1 ∈ AudioVisualizer.analyzeAudio barWidth raw ∧
      ∀ y ∈ AudioVisualizer.analyzeAudio barWidth raw, y ≤ 1) ∧
    ((∀ x ∈ AudioVisualizer.sampleDataRaw barWidth raw, x = 0) →
      AudioVisualizer.analyzeAudio barWidth raw = AudioVisualizer.sampleDataRaw barWidth raw ∧
      ∀ y ∈ AudioVisualizer.analyzeAudio barWidth raw, y = 0) := by
  constructor
  · rintro ⟨x, hx, hx0⟩
    have hxpos : 0 < x := lt_of_le_of_ne (sampleDataRaw_nonneg barWidth raw x hx) (Ne.symm hx0)
    have hm_ge : x ≤ AudioVisualizer.maxSample (AudioVisualizer.sampleDataRaw barWidth raw) :=
      mem_le_foldl_max _ 0 x hx
    have hmpos : 0 < AudioVisualizer.maxSample (AudioVisualizer.sampleDataRaw barWidth raw) :=
      lt_of_lt_of_le hxpos hm_ge
    have hmm : AudioVisualizer.maxSample (AudioVisualizer.sampleDataRaw barWidth raw)
        ∈ AudioVisualizer.sampleDataRaw barWidth raw := by
      rcases foldl_max_mem (AudioVisualizer.sampleDataRaw barWidth raw) 0 with h | h
      · exact absurd h (ne_of_gt hmpos)
      · exact h
    have hopen : AudioVisualizer.analyzeAudio barWidth raw =
        (AudioVisualizer.sampleDataRaw barWidth raw).map
          (fun y => y / AudioVisualizer.maxSample (AudioVisualizer.sampleDataRaw barWidth raw)) := by
      simp only [AudioVisualizer.analyzeAudio]
      rw [if_pos hmpos]
    constructor
    · rw [hopen]
      exact List.mem_map.mpr ⟨_, hmm, div_self (ne_of_gt hmpos)⟩
    · rw [hopen]
      intro y hy
      obtain ⟨z, hz, rfl⟩ := List.mem_map.mp hy
      exact div_le_one_of_le₀ (mem_le_foldl_max _ 0 z hz) (le_of_lt hmpos)
  · intro hz
    have hm : AudioVisualizer.maxSample (AudioVisualizer.sampleDataRaw barWidth raw) = 0 := by
      rcases foldl_max_mem (AudioVisualizer.sampleDataRaw barWidth raw) 0 with h | h
      · exact h
      · exact hz _ h
    have hopen : AudioVisualizer.analyzeAudio barWidth raw =
        AudioVisualizer.sampleDataRaw barWidth raw := by
      simp only [AudioVisualizer.analyzeAudio]
      rw [if_neg (by rw [hm]; exact lt_irrefl 0)]
    exact ⟨hopen, by rw [hopen]; exact hz⟩

/-- C2 witness: `barWidth = 360` over PCM `[1/2, 1/4]` (two blocks of one
sample) normalizes so 1 is attained; over silent `[0, 0]` everything stays 0. -/
theorem analyzeAudio_normalization_witness :
    (1 ∈ AudioVisualizer.analyzeAudio 360 [1/2, 1/4] ∧
      ∀ y ∈ AudioVisualizer.analyzeAudio 360 [1/2, 1/4], y ≤ 1) ∧
    (AudioVisualizer.analyzeAudio 360 [0, 0] = AudioVisualizer.sampleDataRaw 360 [0, 0] ∧
      ∀ y ∈ AudioVisualizer.analyzeAudio 360 [0, 0], y = 0) := by
  have hts : AudioVisualizer.targetSamples 360 = 2 := by
    norm_num [AudioVisualizer.targetSamples, VIDEO_WIDTH]
  have hsd : AudioVisualizer.sampleDataRaw 360 [1/2, 1/4] = [1/2, 1/4] := by
    simp only [AudioVisualizer.sampleDataRaw, AudioVisualizer.blockSize, hts]
    norm_num [List.range_succ, AudioVisualizer.blockPeak]
  have hsd0 : AudioVisualizer.sampleDataRaw 360 [0, 0] = [0, 0] := by
    simp only [AudioVisualizer.sampleDataRaw, AudioVisualizer.blockSize, hts]
    norm_num [List.range_succ, AudioVisualizer.blockPeak]
  constructor
  · refine (analyzeAudio_normalization 360 [1/2, 1/4]).1 ⟨1/2, ?_, by norm_num⟩
    rw [hsd]
    simp
  · refine (analyzeAudio_normalization 360 [0, 0]).2 ?_
    rw [hsd0]
    intro x hx
    simp at hx
    exact hx

/-- C9: for `barWidth > 0`, `analyzeAudio` returns exactly
`⌊VIDEO_WIDTH / barWidth⌋` samples (the canvas width used for rendering is the
same `VIDEO_WIDTH` constant `drawWaveform` uses), and each downsampled value
is the peak absolute value of its contiguous PCM block of
`blockSize = ⌊raw.length / targetSamples⌋` samples starting at
`i * blockSize` — trailing remainder samples are dropped. -/
theorem analyzeAudio_sample_count_and_block_peaks (barWidth : ℚ) (raw : List ℚ)
    (_hbw : 0 < barWidth) :
    (AudioVisualizer.analyzeAudio barWidth raw).length = ⌊VIDEO_WIDTH / barWidth⌋₊ ∧
    ∀ i, i < AudioVisualizer.targetSamples barWidth →
      (AudioVisualizer.sampleDataRaw barWidth raw).getD i 0 =
        ((List.range (AudioVisualizer.blockSize barWidth raw)).map
          (fun j => |raw.getD (i * AudioVisualizer.blockSize barWidth raw + j) 0|)).foldl max 0 := by
  refine ⟨?_, ?_⟩
  · simp only [AudioVisualizer.analyzeAudio]
    split <;>
      simp [AudioVisualizer.sampleDataRaw, AudioVisualizer.targetSamples]
  · intro i hi
    rw [sampleDataRaw_getD barWidth raw i hi]
    unfold AudioVisualizer.blockPeak
    rw [foldl_max_abs_eq_map]
    rw [take_drop_eq_range_map raw _ _ (block_in_range barWidth raw i hi)]
    rw [List.map_map]
    rfl

/-- C9 witness: `barWidth = 360` over `[1/2, -3/4, 1/4]` gives 2 samples
(blocks of one sample each, the trailing sample dropped), each the block's
peak absolute value. -/
theorem analyzeAudio_sample_count_witness :
    (AudioVisualizer.analyzeAudio 360 [1/2, -3/4, 1/4]).length = ⌊VIDEO_WIDTH / 360⌋₊ ∧
    ∀ i, i < AudioVisualizer.targetSamples 360 →
      (AudioVisualizer.sampleDataRaw 360 [1/2, -3/4, 1/4]).getD i 0 =
        ((List.range (AudioVisualizer.blockSize 360 [1/2, -3/4, 1/4])).map
          (fun j => |List.getD [1/2, -3/4, 1/4] (i * AudioVisualizer.blockSize 360 [1/2, -3/4, 1/4] + j) 0|)).foldl max 0 := by
  have h := analyzeAudio_sample_count_and_block_peaks 360 [1/2, -3/4, 1/4] (by norm_num)
  exact ⟨h.1, h.2⟩

/-- C1: the frame sequence generator produces exactly `⌈duration * fps⌉`
frames; the progress used to composite the last frame is exactly 1 (both as
the value of `frameProgress` at the last index and as the last emitted frame
being composited at progress 1); and every earlier frame index `f` uses
progress `f / (totalFrames - 1)`. -/
theorem generateWaveformFrames_count_progress (sampleData : List ℚ)
    (options : AudioVisualizer.VisualizationOptions) (duration : ℚ)
    (bg overlay : Option AudioVisualizer.Img) (_hd : 0 ≤ duration) :
    ((AudioVisualizer.generateWaveformFrames sampleData options duration bg overlay).length
      = ⌈duration * (options.fps : ℚ)⌉₊ ∧
    AudioVisualizer.frameProgress (AudioVisualizer.totalFrames duration options.fps)
      (AudioVisualizer.totalFrames duration options.fps - 1) = 1 ∧
    (0 < AudioVisualizer.totalFrames duration options.fps →
      (AudioVisualizer.generateWaveformFrames sampleData options duration bg overlay).getLast?
        = some (AudioVisualizer.frameCmds sampleData options 1 bg overlay)) ∧
    (∀ f, f < AudioVisualizer.totalFrames duration options.fps - 1 →
      AudioVisualizer.frameProgress (AudioVisualizer.totalFrames duration options.fps) f
        = (f : ℚ) / ((AudioVisualizer.totalFrames duration options.fps : ℚ) - 1))) := by
  refine ⟨?_, ?_, ?_, ?_⟩
  · simp [AudioVisualizer.generateWaveformFrames, AudioVisualizer.totalFrames]
  · unfold AudioVisualizer.frameProgress
    rw [if_pos rfl]
  · intro hT
    unfold AudioVisualizer.generateWaveformFrames
    rw [range_map_getLast? _ hT]
    have hlast : AudioVisualizer.frameProgress (AudioVisualizer.totalFrames duration options.fps)
        (AudioVisualizer.totalFrames duration options.fps - 1) = 1 := by
      unfold AudioVisualizer.frameProgress
      rw [if_pos rfl]
    rw [hlast]
  · intro f hf
    unfold AudioVisualizer.frameProgress
    rw [if_neg (Nat.ne_of_lt hf)]

/-- C1 witness: a 2-second audio at the default 10 fps yields 20 frames, the
last composited at progress exactly 1, frame 7 at `7/19`. -/
theorem generateWaveformFrames_count_witness :
    (AudioVisualizer.generateWaveformFrames [] AudioVisualizer.defaultOptions 2 none none).length = 20 ∧
    AudioVisualizer.frameProgress 20 19 = 1 ∧
    AudioVisualizer.frameProgress 20 7 = 7 / 19 := by
  have h := generateWaveformFrames_count_progress [] AudioVisualizer.defaultOptions 2 none none
    (by norm_num)
  have hT : AudioVisualizer.totalFrames 2 AudioVisualizer.defaultOptions.fps = 20 := by
    simp [AudioVisualizer.totalFrames, AudioVisualizer.defaultOptions]
    norm_num
  refine ⟨?_, ?_, ?_⟩
  · rw [h.1]
    simp [AudioVisualizer.defaultOptions]
    norm_num
  · have := h.2.1
    rw [hT] at this
    exact this
  · have := h.2.2.2 7 (by rw [hT]; norm_num)
    rw [hT] at this
    rw [this]
    norm_num

/-! ### Helper lemmas for the encoder orchestrator filesystem -/

namespace FFmpegCore

theorem string_data_append (s t : String) : (s ++ t).data = s.data ++ t.data := by
  cases s; cases t; rfl

/-- Every frame file name starts with `'f'`. -/
theorem frameName_head (i : ℕ) : ∃ t, (frameName i).data = 'f' :: t := by
  rcases hp : padStart5 (toString i) with ⟨pd⟩
  refine ⟨'r' :: 'a' :: 'm' :: 'e' :: '_' :: (pd ++ ('.' :: 'j' :: 'p' :: 'g' :: [])), ?_⟩
  unfold frameName
  rw [hp, string_data_append, string_data_append]
  rfl

theorem audioName_data (e : String) :
    (audioName e).data = 'a' :: 'u' :: 'd' :: 'i' :: 'o' :: '.' :: e.data := by
  cases e
  rfl

theorem audioName_ne_frameName (e : String) (i : ℕ) : audioName e ≠ frameName i := by
  intro h
  obtain ⟨t, ht⟩ := frameName_head i
  have h2 := congrArg String.data h
  rw [ht, audioName_data] at h2
  simp at h2

theorem outputName_ne_frameName (i : ℕ) : outputName ≠ frameName i := by
  intro h
  obtain ⟨t, ht⟩ := frameName_head i
  have h2 := congrArg String.data h
  rw [ht] at h2
  simp [outputName] at h2

theorem audioName_ne_outputName (e : String) : audioName e ≠ outputName := by
  intro h
  have h2 := congrArg String.data h
  rw [audioName_data] at h2
  simp [outputName] at h2

theorem writeFile_same (fs : FS) (n : String) (d : Bytes) : writeFile fs n d n = some d := by
  simp [writeFile]

theorem writeFile_ne (fs : FS) (n : String) (d : Bytes) (m : String) (h : m ≠ n) :
    writeFile fs n d m = fs m := by
  simp [writeFile, h]

theorem deleteFile_ok_apply (fs : FS) (n : String) (fs2 : FS)
    (h : deleteFile fs n = Except.ok fs2) (m : String) :
    fs2 m = if m = n then none else fs m := by
  unfold deleteFile at h
  split at h
  · simp only [Except.ok.injEq] at h
    rw [← h]
  · cases h

theorem deleteFile_error_none (fs : FS) (n : String) (e : Unit)
    (h : deleteFile fs n = Except.error e) : fs n = none := by
  unfold deleteFile at h
  split at h
  · cases h
  · rename_i hn
    exact Option.not_isSome_iff_eq_none.mp hn

theorem tryDeleteFile_same (fs : FS) (n : String) : tryDeleteFile fs n n = none := by
  unfold tryDeleteFile
  cases hd : deleteFile fs n with
  | ok fs2 => simp [deleteFile_ok_apply fs n fs2 hd n]
  | error e => exact deleteFile_error_none fs n e hd

theorem tryDeleteFile_ne (fs : FS) (n m : String) (h : m ≠ n) :
    tryDeleteFile fs n m = fs m := by
  unfold tryDeleteFile
  cases hd : deleteFile fs n with
  | ok fs2 => simp [deleteFile_ok_apply fs n fs2 hd m, h]
  | error e => rfl

theorem tryDeleteFile_none (fs : FS) (n m : String) (h : fs m = none) :
    tryDeleteFile fs n m = none := by
  by_cases hm : m = n
  · subst hm
    exact tryDeleteFile_same fs m
  · rw [tryDeleteFile_ne fs n m hm]
    exact h

theorem deleteFrames_succ (fs : FS) (k : ℕ) :
    deleteFrames fs (k + 1) = tryDeleteFile (deleteFrames fs k) (frameName k) := by
  unfold deleteFrames
  rw [List.range_succ, List.foldl_append]
  rfl

theorem deleteFrames_none (fs : FS) (k i : ℕ) (hi : i < k) :
    deleteFrames fs k (frameName i) = none := by
  induction k with
  | zero => omega
  | succ k ih =>
    rw [deleteFrames_succ]
    by_cases h : i = k
    · subst h
      exact tryDeleteFile_same _ _
    · exact tryDeleteFile_none _ _ _ (ih (by omega))

theorem deleteFrames_preserves_none (fs : FS) (k : ℕ) (m : String) (h : fs m = none) :
    deleteFrames fs k m = none := by
  induction k with
  | zero => exact h
  | succ k ih =>
    rw [deleteFrames_succ]
    exact tryDeleteFile_none _ _ _ ih

theorem deleteFrames_ne (fs : FS) (k : ℕ) (m : String) (h : ∀ i, m ≠ frameName i) :
    deleteFrames fs k m = fs m := by
  induction k with
  | zero => rfl
  | succ k ih =>
    rw [deleteFrames_succ, tryDeleteFile_ne _ _ _ (h k)]
    exact ih

theorem writeFrames_ne (fs : FS) (frames : List Bytes) (m : String)
    (h : ∀ i, m ≠ frameName i) : writeFrames fs frames m = fs m := by
  unfold writeFrames
  induction frames using List.reverseRecOn generalizing fs with
  | nil => rfl
  | append_singleton l d ih =>
    rw [List.enum_append]
    simp only [List.enumFrom, List.foldl_append, List.foldl_cons, List.foldl_nil]
    rw [writeFile_ne _ _ _ _ (h _)]
    exact ih fs

/-- After `cleanupAudioOutput`, the audio entry is always gone. -/
theorem cleanupAudioOutput_audioName (fs : FS) (e : String) :
    cleanupAudioOutput fs e (audioName e) = none := by
  unfold cleanupAudioOutput
  cases hd1 : deleteFile fs (audioName e) with
  | error u =>
    dsimp only
    exact deleteFile_error_none _ _ _ hd1
  | ok fs2 =>
    dsimp only
    have h2 : fs2 (audioName e) = none := by
      simp [deleteFile_ok_apply _ _ _ hd1 (audioName e)]
    cases hd2 : deleteFile fs2 outputName with
    | error u =>
      dsimp only
      exact h2
    | ok fs3 =>
      dsimp only
      rw [deleteFile_ok_apply _ _ _ hd2 (audioName e)]
      split
      · rfl
      · exact h2

/-- After `cleanupAudioOutput` from a state where the audio entry exists, the
output entry is gone (the audio delete cannot throw, so the output delete is
reached). -/
theorem cleanupAudioOutput_outputName (fs : FS) (e : String)
    (ha : (fs (audioName e)).isSome) : cleanupAudioOutput fs e outputName = none := by
  unfold cleanupAudioOutput
  rw [show deleteFile fs (audioName e)
      = Except.ok (fun m => if m = audioName e then none else fs m) from by
    unfold deleteFile
    rw [if_pos ha]]
  dsimp only
  cases hd2 : deleteFile (fun m => if m = audioName e then none else fs m) outputName with
  | error u =>
    dsimp only
    exact deleteFile_error_none (fun m => if m = audioName e then none else fs m) outputName u hd2
  | ok fs3 =>
    dsimp only
    rw [deleteFile_ok_apply _ _ _ hd2 outputName]
    simp

/-- `cleanupAudioOutput` never creates entries. -/
theorem cleanupAudioOutput_preserves_none (fs : FS) (e : String) (m : String)
    (h : fs m = none) : cleanupAudioOutput fs e m = none := by
  unfold cleanupAudioOutput
  cases hd1 : deleteFile fs (audioName e) with
  | error u =>
    dsimp only
    exact h
  | ok fs2 =>
    dsimp only
    have h2 : fs2 m = none := by
      rw [deleteFile_ok_apply _ _ _ hd1 m]
      split
      · rfl
      · exact h
    cases hd2 : deleteFile fs2 outputName with
    | error u =>
      dsimp only
      exact h2
    | ok fs3 =>
      dsimp only
      rw [deleteFile_ok_apply _ _ _ hd2 m]
      split
      · rfl
      · exact h2

/-- The filesystem component of `createVideoFromFrames`, unfolded. -/
theorem createVideoFromFrames_fst (fs0 : FS) (frames : List Bytes) (audio : Bytes)
    (audioExt : String) (execResult : ℕ) (encoded : Bytes) :
    (createVideoFromFrames fs0 frames audio audioExt execResult encoded).1 =
      cleanupAudioOutput
        (deleteFrames
          (if execResult = 0
            then writeFile
              (writeFile (writeFrames (cleanupAudioOutput (deleteFrames fs0 frames.length) audioExt) frames)
                (audioName audioExt) audio)
              outputName encoded
            else writeFile (writeFrames (cleanupAudioOutput (deleteFrames fs0 frames.length) audioExt) frames)
              (audioName audioExt) audio)
          frames.length)
        audioExt := rfl

/-- The result component of `createVideoFromFrames`, unfolded. -/
theorem createVideoFromFrames_snd (fs0 : FS) (frames : List Bytes) (audio : Bytes)
    (audioExt : String) (execResult : ℕ) (encoded : Bytes) :
    (createVideoFromFrames fs0 frames audio audioExt execResult encoded).2 =
      if execResult = 0 then
        match (if execResult = 0
            then writeFile
              (writeFile (writeFrames (cleanupAudioOutput (deleteFrames fs0 frames.length) audioExt) frames)
                (audioName audioExt) audio)
              outputName encoded
            else writeFile (writeFrames (cleanupAudioOutput (deleteFrames fs0 frames.length) audioExt) frames)
              (audioName audioExt) audio) outputName with
          | some d => Except.ok d
          | none => Except.error "output.mp4 missing"
      else Except.error ("FFmpeg frame video failed with code " ++ toString execResult) := rfl

end FFmpegCore

/-- C3: cleanup discipline of `createVideoFromFrames`. For every starting
filesystem, frame list, audio bytes and mock encode result: after the call
returns, every zero-padded frame entry, the audio entry and the output entry
are absent from the engine filesystem — both when the encode command fails
(non-zero result, where the error propagates to the caller) and when it
succeeds (where the encoded bytes are returned). -/
theorem createVideoFromFrames_cleanup (fs0 : FFmpegCore.FS) (frames : List FFmpegCore.Bytes)
    (audio : FFmpegCore.Bytes) (audioExt : String) (execResult : ℕ) (encoded : FFmpegCore.Bytes) :
    (∀ i, i < frames.length →
      (FFmpegCore.createVideoFromFrames fs0 frames audio audioExt execResult encoded).1
        (FFmpegCore.frameName i) = none) ∧
    (FFmpegCore.createVideoFromFrames fs0 frames audio audioExt execResult encoded).1
      (FFmpegCore.audioName audioExt) = none ∧
    (FFmpegCore.createVideoFromFrames fs0 frames audio audioExt execResult encoded).1
      FFmpegCore.outputName = none ∧
    (execResult ≠ 0 →
      (FFmpegCore.createVideoFromFrames fs0 frames audio audioExt execResult encoded).2
        = Except.error ("FFmpeg frame video failed with code " ++ toString execResult)) ∧
    (execResult = 0 →
      (FFmpegCore.createVideoFromFrames fs0 frames audio audioExt execResult encoded).2
        = Except.ok encoded) := by
  have hwrite : ∀ fs : FFmpegCore.FS,
      (if execResult = 0
        then FFmpegCore.writeFile fs FFmpegCore.outputName encoded
        else fs) (FFmpegCore.audioName audioExt) = fs (FFmpegCore.audioName audioExt) := by
    intro fs
    split
    · exact FFmpegCore.writeFile_ne _ _ _ _ (FFmpegCore.audioName_ne_outputName audioExt)
    · rfl
  have h5a :
      (if execResult = 0
        then FFmpegCore.writeFile
          (FFmpegCore.writeFile
            (FFmpegCore.writeFrames
              (FFmpegCore.cleanupAudioOutput (FFmpegCore.deleteFrames fs0 frames.length) audioExt)
              frames)
            (FFmpegCore.audioName audioExt) audio)
          FFmpegCore.outputName encoded
        else FFmpegCore.writeFile
          (FFmpegCore.writeFrames
            (FFmpegCore.cleanupAudioOutput (FFmpegCore.deleteFrames fs0 frames.length) audioExt)
            frames)
          (FFmpegCore.audioName audioExt) audio) (FFmpegCore.audioName audioExt) = some audio := by
    split
    · rw [FFmpegCore.writeFile_ne _ _ _ _ (FFmpegCore.audioName_ne_outputName audioExt)]
      exact FFmpegCore.writeFile_same _ _ _
    · exact FFmpegCore.writeFile_same _ _ _
  have h6a :
      FFmpegCore.deleteFrames
        (if execResult = 0
          then FFmpegCore.writeFile
            (FFmpegCore.writeFile
              (FFmpegCore.writeFrames
                (FFmpegCore.cleanupAudioOutput (FFmpegCore.deleteFrames fs0 frames.length) audioExt)
                frames)
              (FFmpegCore.audioName audioExt) audio)
            FFmpegCore.outputName encoded
          else FFmpegCore.writeFile
            (FFmpegCore.writeFrames
              (FFmpegCore.cleanupAudioOutput (FFmpegCore.deleteFrames fs0 frames.length) audioExt)
              frames)
            (FFmpegCore.audioName audioExt) audio)
        frames.length (FFmpegCore.audioName audioExt) = some audio := by
    rw [FFmpegCore.deleteFrames_ne _ _ _ (fun i => FFmpegCore.audioName_ne_frameName audioExt i)]
    exact h5a
  refine ⟨?_, ?_, ?_, ?_, ?_⟩
  · intro i hi
    rw [FFmpegCore.createVideoFromFrames_fst]
    exact FFmpegCore.cleanupAudioOutput_preserves_none _ _ _
      (FFmpegCore.deleteFrames_none _ _ _ hi)
  · rw [FFmpegCore.createVideoFromFrames_fst]
    exact FFmpegCore.cleanupAudioOutput_audioName _ _
  · rw [FFmpegCore.createVideoFromFrames_fst]
    refine FFmpegCore.cleanupAudioOutput_outputName _ _ ?_
    rw [h6a]
    rfl
  · intro hr
    rw [FFmpegCore.createVideoFromFrames_snd, if_neg hr]
  · intro hr
    subst hr
    rw [FFmpegCore.createVideoFromFrames_snd, if_pos (rfl : (0 : ℕ) = 0),
      if_pos (rfl : (0 : ℕ) = 0), FFmpegCore.writeFile_same]

/-- C3 witness: a two-frame conversion against an empty filesystem, once with
a failing encode (result 1: the error propagates, everything deleted) and once
with a succeeding one (result 0: the encoded bytes are returned). -/
theorem createVideoFromFrames_cleanup_witness :
    (FFmpegCore.createVideoFromFrames (fun _ => none) [[1], [2]] [3] "mp3" 1 [9]).1
      (FFmpegCore.frameName 0) = none ∧
    (FFmpegCore.createVideoFromFrames (fun _ => none) [[1], [2]] [3] "mp3" 1 [9]).1
      (FFmpegCore.audioName "mp3") = none ∧
    (FFmpegCore.createVideoFromFrames (fun _ => none) [[1], [2]] [3] "mp3" 1 [9]).2
      = Except.error ("FFmpeg frame video failed with code " ++ toString 1) ∧
    (FFmpegCore.createVideoFromFrames (fun _ => none) [[1], [2]] [3] "mp3" 0 [9]).2
      = Except.ok [9] := by
  have h1 := createVideoFromFrames_cleanup (fun _ => none) [[1], [2]] [3] "mp3" 1 [9]
  have h0 := createVideoFromFrames_cleanup (fun _ => none) [[1], [2]] [3] "mp3" 0 [9]
  exact ⟨h1.1 0 (by norm_num), h1.2.1, h1.2.2.2.1 (by norm_num), h0.2.2.2.2 rfl⟩

/-! ### Helper lemmas for the frame compositor rendering semantics -/

namespace AudioVisualizer

/-- `drawWaveformCmds` always begins with its background command. -/
theorem drawWaveformCmds_cons (sd : List ℚ) (options : VisualizationOptions)
    (progress : ℚ) (bg : Option Img) :
    ∃ rest, drawWaveformCmds sd options progress bg =
      (match bg, options.backgroundImage with
        | some img, true =>
          DrawCmd.drawImage img
            (coverPlacement img.width img.height VIDEO_WIDTH VIDEO_HEIGHT).offsetX
            (coverPlacement img.width img.height VIDEO_WIDTH VIDEO_HEIGHT).offsetY
            (coverPlacement img.width img.height VIDEO_WIDTH VIDEO_HEIGHT).drawWidth
            (coverPlacement img.width img.height VIDEO_WIDTH VIDEO_HEIGHT).drawHeight
        | _, _ => DrawCmd.fillRect options.backgroundColor 0 0 VIDEO_WIDTH VIDEO_HEIGHT) ::
        rest :=
  ⟨_, rfl⟩

/-- Rendering a nonempty command list folds from the applied head. -/
theorem renderCmds_cons (pathRast : DrawCmd → ℕ → ℕ → Color → Color) (c : DrawCmd)
    (cs : List DrawCmd) (s : Surface) (px py : ℕ) :
    renderCmds pathRast (c :: cs) s px py =
      cs.foldl (fun acc cmd => applyCmd pathRast cmd px py acc)
        (applyCmd pathRast c px py (s px py)) :=
  rfl

/-- The cover-fit placement covers every canvas pixel: scaling by the larger
ratio makes both drawn dimensions at least the canvas dimensions, with the
overflow split symmetrically. -/
theorem coverPlacement_covers (imgW imgH : ℚ) (hW : 0 < imgW) (hH : 0 < imgH)
    (px py : ℚ) (hx0 : 0 ≤ px) (hx : px < 720) (hy0 : 0 ≤ py) (hy : py < 1280) :
    inRect px py (coverPlacement imgW imgH VIDEO_WIDTH VIDEO_HEIGHT).offsetX
      (coverPlacement imgW imgH VIDEO_WIDTH VIDEO_HEIGHT).offsetY
      (coverPlacement imgW imgH VIDEO_WIDTH VIDEO_HEIGHT).drawWidth
      (coverPlacement imgW imgH VIDEO_WIDTH VIDEO_HEIGHT).drawHeight := by
  have hA : 0 < imgW / imgH := div_pos hW hH
  unfold coverPlacement VIDEO_WIDTH VIDEO_HEIGHT
  by_cases hcond : (720 : ℚ) / 1280 < imgW / imgH
  · rw [if_pos hcond]
    have h720 : (720 : ℚ) < 1280 * (imgW / imgH) := by
      have := (div_lt_iff₀ (by norm_num : (0 : ℚ) < 1280)).mp hcond
      linarith
    exact ⟨by dsimp only; linarith, by dsimp only; linarith,
           by dsimp only; linarith, by dsimp only; linarith⟩
  · rw [if_neg hcond]
    have hle : imgW / imgH ≤ (720 : ℚ) / 1280 := le_of_not_lt hcond
    have h1280 : (1280 : ℚ) ≤ 720 / (imgW / imgH) := by
      rw [le_div_iff₀ hA]
      have := (le_div_iff₀ (by norm_num : (0 : ℚ) < 1280)).mp hle
      linarith
    exact ⟨by dsimp only; linarith, by dsimp only; linarith,
           by dsimp only; linarith, by dsimp only; linarith⟩

end AudioVisualizer

/-- C5 counterexample: on the 720×1280 canvas with a background image of
aspect ratio 2.0 (800×400), `drawWaveform` computes the cover-crop placement
`(offsetX, offsetY, drawWidth, drawHeight) = (-920, 0, 2560, 1280)` — not the
letterboxed `(0, 460, 720, 360)` the claim states. -/
theorem drawWaveform_letterbox_counterexample :
    AudioVisualizer.bgPlacementOf
      (AudioVisualizer.drawWaveformCmds []
        { AudioVisualizer.defaultOptions with backgroundImage := true } 0
        (some ⟨800, 400, fun _ _ => AudioVisualizer.colorBlack⟩))
      = some (-920, 0, 2560, 1280) ∧
    AudioVisualizer.bgPlacementOf
      (AudioVisualizer.drawWaveformCmds []
        { AudioVisualizer.defaultOptions with backgroundImage := true } 0
        (some ⟨800, 400, fun _ _ => AudioVisualizer.colorBlack⟩))
      ≠ some (0, 460, 720, 360) := by
  have hplace : AudioVisualizer.bgPlacementOf
      (AudioVisualizer.drawWaveformCmds []
        { AudioVisualizer.defaultOptions with backgroundImage := true } 0
        (some ⟨800, 400, fun _ _ => AudioVisualizer.colorBlack⟩))
      = some (-920, 0, 2560, 1280) := by
    obtain ⟨rest, hcons⟩ := AudioVisualizer.drawWaveformCmds_cons []
      { AudioVisualizer.defaultOptions with backgroundImage := true } 0
      (some ⟨800, 400, fun _ _ => AudioVisualizer.colorBlack⟩)
    rw [hcons]
    have hcov : AudioVisualizer.coverPlacement 800 400 VIDEO_WIDTH VIDEO_HEIGHT
        = ⟨-920, 0, 2560, 1280⟩ := by
      unfold AudioVisualizer.coverPlacement VIDEO_WIDTH VIDEO_HEIGHT
      rw [if_pos (by norm_num)]
      norm_num
    simp only [AudioVisualizer.bgPlacementOf, hcov]
  refine ⟨hplace, ?_⟩
  rw [hplace]
  simp only [ne_eq, Option.some.injEq, Prod.mk.injEq, not_and]
  intro h
  exact absurd h (by norm_num)

/-- C5 amended: on the 720×1280 canvas, a background image with aspect ratio
2.0 (wider than the canvas aspect 9:16) is drawn with cover fit — scaled to
the canvas height and cropped horizontally, centered: `drawWidth = 2560`,
`drawHeight = 1280`, `offsetX = -920`, `offsetY = 0`. -/
theorem drawWaveform_cover_placement (img : AudioVisualizer.Img)
    (hasp : img.width / img.height = 2) (sd : List ℚ) (progress : ℚ)
    (options : AudioVisualizer.VisualizationOptions)
    (hbg : options.backgroundImage = true) :
    AudioVisualizer.bgPlacementOf
      (AudioVisualizer.drawWaveformCmds sd options progress (some img))
      = some (-920, 0, 2560, 1280) := by
  obtain ⟨rest, hcons⟩ :=
    AudioVisualizer.drawWaveformCmds_cons sd options progress (some img)
  rw [hcons, hbg]
  have hcov : AudioVisualizer.coverPlacement img.width img.height VIDEO_WIDTH VIDEO_HEIGHT
      = ⟨-920, 0, 2560, 1280⟩ := by
    unfold AudioVisualizer.coverPlacement VIDEO_WIDTH VIDEO_HEIGHT
    rw [hasp]
    rw [if_pos (by norm_num)]
    norm_num
  simp only [AudioVisualizer.bgPlacementOf, hcov]

/-- C5 amended witness: the 800×400 image on the default options with a
background image present. -/
theorem drawWaveform_cover_placement_witness :
    AudioVisualizer.bgPlacementOf
      (AudioVisualizer.drawWaveformCmds [1/2]
        { AudioVisualizer.defaultOptions with backgroundImage := true } (1/2)
        (some ⟨800, 400, fun _ _ => AudioVisualizer.colorBlack⟩))
      = some (-920, 0, 2560, 1280) :=
  drawWaveform_cover_placement ⟨800, 400, fun _ _ => AudioVisualizer.colorBlack⟩
    (by norm_num) [1/2] (1/2)
    { AudioVisualizer.defaultOptions with backgroundImage := true } rfl

/-- C8 amended: frame compositing does not drift across a reused surface when
the background layer is opaque. For every path rasterizer, sample data,
options, progress, background image and canvas pixel, if the background layer
is fully opaque (`opaqueBackground`: an alpha-1 background image of positive
dimensions, or no image and an opaque solid color), then rendering the
`drawWaveform` command list yields the same pixel regardless of the prior
surface contents — so identical `(sampleData, options, progress, image)`
always produce pixel-identical output. -/
theorem renderCmds_independent_of_prior_surface
    (pathRast : AudioVisualizer.DrawCmd → ℕ → ℕ → AudioVisualizer.Color → AudioVisualizer.Color)
    (sd : List ℚ) (options : AudioVisualizer.VisualizationOptions) (progress : ℚ)
    (bg : Option AudioVisualizer.Img) (s1 s2 : AudioVisualizer.Surface) (px py : ℕ)
    (hpx : px < 720) (hpy : py < 1280)
    (hop : AudioVisualizer.opaqueBackground options bg) :
    AudioVisualizer.renderCmds pathRast (AudioVisualizer.drawWaveformCmds sd options progress bg)
      s1 px py =
    AudioVisualizer.renderCmds pathRast (AudioVisualizer.drawWaveformCmds sd options progress bg)
      s2 px py := by
  have hpxq : (px : ℚ) < 720 := by exact_mod_cast hpx
  have hpyq : (py : ℚ) < 1280 := by exact_mod_cast hpy
  obtain ⟨rest, hcons⟩ := AudioVisualizer.drawWaveformCmds_cons sd options progress bg
  rw [hcons, AudioVisualizer.renderCmds_cons, AudioVisualizer.renderCmds_cons]
  refine congrArg
    (fun z => rest.foldl (fun acc cmd => AudioVisualizer.applyCmd pathRast cmd px py acc) z) ?_
  have hinFull : AudioVisualizer.inRect (px : ℚ) (py : ℚ) 0 0 VIDEO_WIDTH VIDEO_HEIGHT := by
    refine ⟨Nat.cast_nonneg px, ?_, Nat.cast_nonneg py, ?_⟩
    · rw [zero_add]
      unfold VIDEO_WIDTH
      exact hpxq
    · rw [zero_add]
      unfold VIDEO_HEIGHT
      exact hpyq
  rcases bg with _ | img
  · unfold AudioVisualizer.opaqueBackground at hop
    dsimp only at hop ⊢
    simp only [AudioVisualizer.applyCmd]
    rw [if_pos hinFull, if_pos hinFull]
    unfold AudioVisualizer.blend
    rw [if_pos hop, if_pos hop]
  · unfold AudioVisualizer.opaqueBackground at hop
    cases hbgi : options.backgroundImage with
    | false =>
      rw [hbgi] at hop
      dsimp only at hop
      simp only [AudioVisualizer.applyCmd]
      rw [if_pos hinFull, if_pos hinFull]
      unfold AudioVisualizer.blend
      rw [if_pos hop, if_pos hop]
    | true =>
      rw [hbgi] at hop
      dsimp only at hop
      obtain ⟨hW, hH, hpix⟩ := hop
      have hin := AudioVisualizer.coverPlacement_covers img.width img.height hW hH
        (px : ℚ) (py : ℚ) (Nat.cast_nonneg px) hpxq (Nat.cast_nonneg py) hpyq
      simp only [AudioVisualizer.applyCmd]
      rw [if_pos hin, if_pos hin]
      unfold AudioVisualizer.blend
      rw [if_pos (hpix _ _), if_pos (hpix _ _)]

/-- C8 amended witness: with no background image and the default (opaque)
background color, the pixel rendered at `(0, 0)` is the same over two
different prior surfaces. -/
theorem renderCmds_independent_witness :
    AudioVisualizer.renderCmds (fun _ _ _ prev => prev)
      (AudioVisualizer.drawWaveformCmds [] AudioVisualizer.defaultOptions 0 none)
      (fun _ _ => AudioVisualizer.colorBlack) 0 0 =
    AudioVisualizer.renderCmds (fun _ _ _ prev => prev)
      (AudioVisualizer.drawWaveformCmds [] AudioVisualizer.defaultOptions 0 none)
      (fun _ _ => AudioVisualizer.colorWhite) 0 0 :=
  renderCmds_independent_of_prior_surface (fun _ _ _ prev => prev) []
    AudioVisualizer.defaultOptions 0 none
    (fun _ _ => AudioVisualizer.colorBlack) (fun _ _ => AudioVisualizer.colorWhite)
    0 0 (by norm_num) (by norm_num) rfl

/-- C8 counterexample: `drawWaveform`'s raster output is not a function of
`(sampleData, options, progress, background image)` alone. With a fully
transparent 1×1 background image (and otherwise default options), the
composited pixel at `(0, 0)` still shows the prior surface contents, so two
invocations with identical inputs over different prior surfaces produce
different output. -/
theorem drawWaveform_determinism_counterexample :
    AudioVisualizer.renderCmds (fun _ _ _ prev => prev)
      (AudioVisualizer.drawWaveformCmds []
        { AudioVisualizer.defaultOptions with backgroundImage := true } 0
        (some ⟨1, 1, fun _ _ => ⟨0, 0, 0, 0⟩⟩))
      (fun _ _ => AudioVisualizer.colorBlack) 0 0 ≠
    AudioVisualizer.renderCmds (fun _ _ _ prev => prev)
      (AudioVisualizer.drawWaveformCmds []
        { AudioVisualizer.defaultOptions with backgroundImage := true } 0
        (some ⟨1, 1, fun _ _ => ⟨0, 0, 0, 0⟩⟩))
      (fun _ _ => AudioVisualizer.colorWhite) 0 0 := by
  have hcmds : AudioVisualizer.drawWaveformCmds []
      { AudioVisualizer.defaultOptions with backgroundImage := true } 0
      (some ⟨1, 1, fun _ _ => ⟨0, 0, 0, 0⟩⟩) =
      [AudioVisualizer.DrawCmd.drawImage ⟨1, 1, fun _ _ => ⟨0, 0, 0, 0⟩⟩ (-280) 0 1280 1280,
       AudioVisualizer.DrawCmd.fillRect ⟨0, 0, 0, 3/10⟩ 0 1152 720 128] := by
    unfold AudioVisualizer.drawWaveformCmds
    norm_num [AudioVisualizer.coverPlacement, AudioVisualizer.orDefault,
      AudioVisualizer.defaultOptions, VIDEO_WIDTH, VIDEO_HEIGHT]
  have heval : ∀ s : AudioVisualizer.Surface,
      AudioVisualizer.renderCmds (fun _ _ _ prev => prev)
        (AudioVisualizer.drawWaveformCmds []
          { AudioVisualizer.defaultOptions with backgroundImage := true } 0
          (some ⟨1, 1, fun _ _ => ⟨0, 0, 0, 0⟩⟩)) s 0 0 = s 0 0 := by
    intro s
    rw [hcmds]
    simp only [AudioVisualizer.renderCmds, List.foldl_cons, List.foldl_nil]
    norm_num [AudioVisualizer.applyCmd, AudioVisualizer.inRect, AudioVisualizer.blend]
  rw [heval, heval]
  intro h
  have := congrArg AudioVisualizer.Color.r h
  simp [AudioVisualizer.colorBlack, AudioVisualizer.colorWhite] at this

end BotAdventure
